import Mathlib

/-!
Verification of the Cerebralogik v5.0 serial framing parser and command
encoder (`clogik_50_ser.cpp`).

The C program keeps its parser state in process-wide globals
(`Phase`, `Crc`, `RdyFlg`, `LocalIndex`, `MsgCRC`, `data1[18]`, `packet`);
we collect them in a structure and model one iteration of the `for` loop
in `parser` as a step function.  Bytes are natural numbers; every place
the C code narrows to `unsigned char` / `unsigned short` we take the
remainder modulo 256 / 65536 explicitly.  The two `fprintf_s` sinks
(`out_gs`, `out_eeg`) and the `stdout` error report are modelled as an
event list produced by each step; the exact record strings are produced
by rendering functions that follow the C format strings
(`"%d, %d, %d "` + `"\n"` for the GS stream, `"%d, %d, %f, %08X\n"` for
the EEG stream).  The `%f` field is floating point and is abstracted as
a string-valued function of word 0.
-/

/-- Reinterpret the low 16 bits of `n` as a signed 16-bit value, as the
C cast `(short)` does on the reference platform. -/
def toSigned16 (n : Nat) : Int :=
  if n % 65536 < 32768 then ((n % 65536 : Nat) : Int)
  else ((n % 65536 : Nat) : Int) - 65536

/-- The 16-bit pattern of a signed 16-bit value (two's complement). -/
def toUnsigned16 (x : Int) : Nat := (x % 65536).toNat

/-- The 32-bit pattern of an `int`-promoted signed value, as used by
`%08X` on a sign-extended `short` argument. -/
def toUnsigned32 (x : Int) : Nat := (x % 4294967296).toNat

/-- One hexadecimal digit, upper case, for `n < 16`. -/
def hexChar (n : Nat) : Char :=
  if n < 10 then Char.ofNat (48 + n) else Char.ofNat (55 + n)

/-- Rendering of `%08X` for a value `v < 2^32`: eight upper-case hex digits, zero padded. -/
def hex8 (v : Nat) : String :=
  String.mk [hexChar (v / 16 ^ 7 % 16), hexChar (v / 16 ^ 6 % 16),
    hexChar (v / 16 ^ 5 % 16), hexChar (v / 16 ^ 4 % 16),
    hexChar (v / 16 ^ 3 % 16), hexChar (v / 16 ^ 2 % 16),
    hexChar (v / 16 % 16), hexChar (v % 16)]

/-- The global parser state of `clogik_50_ser.cpp` (source lines 10-16).
`data1` is the 18-word buffer, modelled as a total function so that the
absence of out-of-range writes is provable. -/
structure ParserState where
  Phase : Nat
  Crc : Nat
  RdyFlg : Nat
  LocalIndex : Nat
  MsgCRC : Nat
  data1 : Nat → Int
  packet : Nat

/-- Observable output of the program: a GS-stream record, an EEG-stream
record, or the `"Error packet %d\n"` report on `stdout`. -/
inductive Ev where
  | gsRec (pkt : Nat) (d3 d16 : Int)
  | eegRec (pkt : Nat) (d0 d9 : Int)
  | errRep (pkt : Nat)
deriving DecidableEq

/-- C globals are zero-initialized: the state at program start. -/
def initState : ParserState :=
  { Phase := 0, Crc := 0, RdyFlg := 0, LocalIndex := 0, MsgCRC := 0,
    data1 := fun _ => 0, packet := 0 }

/-- One iteration of the `for` loop in `parser` (source lines 24-94):
the `switch (Phase)` on one input byte.  The C buffer holds
`unsigned char`, hence the `% 256` on entry. -/
def parserStep (s : ParserState) (b0 : Nat) : ParserState × List Ev :=
  let b := b0 % 256
  if s.Phase = 0 then
    if b = 0xAA then ({ s with Phase := 1, Crc := 0xAA }, []) else (s, [])
  else if s.Phase = 1 then
    if b = 0x55 then
      ({ s with Phase := 2, RdyFlg := 0, Crc := (s.Crc + 0x55) % 65536, LocalIndex := 0 }, [])
    else (s, [])
  else if s.Phase = 2 then
    let indx := s.LocalIndex / 2
    let v : Int :=
      if s.LocalIndex % 2 = 0 then toSigned16 (b * 256)
      else toSigned16 (Nat.lor (toUnsigned16 (s.data1 indx)) b)
    let li := s.LocalIndex + 1
    ({ s with data1 := fun j => if j = indx then v else s.data1 j, LocalIndex := li, Crc := (s.Crc + b) % 65536, Phase := if li = 36 then 3 else 2 }, [])
  else if s.Phase = 3 then
    ({ s with MsgCRC := b * 256, Phase := 4 }, [])
  else if s.Phase = 4 then
    let m := (s.MsgCRC + b) % 65536
    if m = s.Crc then
      let pk := (s.packet + 1) % 65536
      ({ s with MsgCRC := m, RdyFlg := 1, packet := pk, Phase := 0 },
        (if s.data1 16 ≠ 255 then [Ev.gsRec pk (s.data1 3) (s.data1 16)] else []) ++
          [Ev.eegRec pk (s.data1 0) (s.data1 9)])
    else
      ({ s with MsgCRC := m, Phase := 0 }, [Ev.errRep s.packet])
  else (s, [])

/-- The `parser` function: fold `parserStep` over a chunk of bytes,
collecting the emitted records in order. -/
def parser : ParserState → List Nat → ParserState × List Ev
  | s, [] => (s, [])
  | s, b :: rest =>
    let r := parserStep s b
    let r2 := parser r.1 rest
    (r2.1, r.2 ++ r2.2)

/-- GS-stream record text: `fprintf_s(out_gs, "%d, %d, %d ", ...)`
followed by `fprintf_s(out_gs, "\n")` (source lines 76-77). -/
def gsLine (pkt : Nat) (d3 d16 : Int) : String :=
  toString pkt ++ ", " ++ toString d3 ++ ", " ++ toString d16 ++ " " ++ "\n"

/-- EEG-stream record text: `fprintf_s(out_eeg, "%d, %d, %f, %08X\n", ...)`
(source line 84), with the `%f` field supplied as a string `f`. -/
def eegLine (pkt : Nat) (d0 d9 : Int) (f : String) : String :=
  toString pkt ++ ", " ++ toString d0 ++ ", " ++ f ++ ", " ++
    hex8 (toUnsigned32 d9) ++ "\n"

/-- The EEG record format as the specification writes it
(`<packet>,<word0>,<word0*0.076>,<word9 as 8-hex-digit>\n`, bare comma
separators); stated only to be compared against `eegLine`. -/
def eegLineClaimed (pkt : Nat) (d0 d9 : Int) (f : String) : String :=
  toString pkt ++ "," ++ toString d0 ++ "," ++ f ++ "," ++
    hex8 (toUnsigned32 d9) ++ "\n"

def Ev.isEeg : Ev → Bool
  | .eegRec .. => true
  | _ => false

def Ev.isGs : Ev → Bool
  | .gsRec .. => true
  | _ => false

def Ev.isErr : Ev → Bool
  | .errRep _ => true
  | _ => false

/-- Number of EEG records in an event list. -/
def countEeg (evs : List Ev) : Nat := evs.countP Ev.isEeg

/-- Number of GS records in an event list. -/
def countGs (evs : List Ev) : Nat := evs.countP Ev.isGs

/-- Number of error reports in an event list. -/
def countErr (evs : List Ev) : Nat := evs.countP Ev.isErr

/-- Render the EEG records of an event list, using `fmtF` for the
floating-point field (a function of word 0, as in the source where the
field is `((float)data1[0])*0.076`). -/
def renderEeg (fmtF : Int → String) (evs : List Ev) : List String :=
  evs.filterMap fun e =>
    match e with
    | .eegRec pkt d0 d9 => some (eegLine pkt d0 d9 (fmtF d0))
    | _ => none

/-- Render the GS records of an event list. -/
def renderGs (evs : List Ev) : List String :=
  evs.filterMap fun e =>
    match e with
    | .gsRec pkt d3 d16 => some (gsLine pkt d3 d16)
    | _ => none

/-- Holds iff feeding byte `b` to state `s` takes the success branch of
the checksum comparison (source line 70). -/
def stepValidates (s : ParserState) (b : Nat) : Bool :=
  s.Phase == 4 && (s.MsgCRC + b % 256) % 65536 == s.Crc

/-- Number of validated packets along a run. -/
def validCount : ParserState → List Nat → Nat
  | _, [] => 0
  | s, b :: rest =>
    (if stepValidates s b then 1 else 0) + validCount (parserStep s b).1 rest

/-- Number of validated packets whose word 16 differs from 255 along a run. -/
def validGsCount : ParserState → List Nat → Nat
  | _, [] => 0
  | s, b :: rest =>
    (if stepValidates s b && (s.data1 16 != 255) then 1 else 0) +
      validGsCount (parserStep s b).1 rest

/-- The command encoder `setParam` (source lines 98-111): the 8-byte
frame it builds.  `CommandType` and `CommandOpt` are `unsigned char`,
and `cmd[3]`, `CRC` are narrowed back to `unsigned char`. -/
def setParamFrame (t o : Nat) : List Nat :=
  let cmd3 := (Nat.lor ((t % 256) * 16) (o % 256)) % 256
  let crc := (0xAA + 0x55 + 0x0 + cmd3 + 0x0 + 0x0) % 256
  [0xAA, 0x55, 0x0, cmd3, 0x0, 0x0, crc, 0x3]

/-- The encoder `setParam` performs exactly one `serial->write(cmd, 8)`: the list of
transport writes it issues. -/
def setParamWrites (t o : Nat) : List (List Nat) := [setParamFrame t o]

/-- States reachable from program start by feeding bytes. -/
inductive Reachable : ParserState → Prop where
  | init : Reachable initState
  | next : ∀ s b, Reachable s → Reachable (parserStep s b).1

/-! ### Step lemmas: one per `switch` branch -/

lemma step_phase0_aa (s : ParserState) (b : Nat) (h : s.Phase = 0) (hb : b % 256 = 0xAA) :
    parserStep s b = ({ s with Phase := 1, Crc := 0xAA }, []) := by
  simp [parserStep, h, hb]

lemma step_phase0_other (s : ParserState) (b : Nat) (h : s.Phase = 0) (hb : b % 256 ≠ 0xAA) :
    parserStep s b = (s, []) := by
  simp [parserStep, h, hb]

lemma step_phase1_55 (s : ParserState) (b : Nat) (h : s.Phase = 1) (hb : b % 256 = 0x55) :
    parserStep s b = ({ s with Phase := 2, RdyFlg := 0, Crc := (s.Crc + 0x55) % 65536, LocalIndex := 0 }, []) := by
  simp [parserStep, h, hb]

lemma step_phase1_other (s : ParserState) (b : Nat) (h : s.Phase = 1) (hb : b % 256 ≠ 0x55) :
    parserStep s b = (s, []) := by
  simp [parserStep, h, hb]

lemma step_phase2 (s : ParserState) (b : Nat) (h : s.Phase = 2) :
    parserStep s b = ({ s with data1 := fun j => if j = s.LocalIndex / 2 then (if s.LocalIndex % 2 = 0 then toSigned16 (b % 256 * 256) else toSigned16 (Nat.lor (toUnsigned16 (s.data1 (s.LocalIndex / 2))) (b % 256))) else s.data1 j, LocalIndex := s.LocalIndex + 1, Crc := (s.Crc + b % 256) % 65536, Phase := if s.LocalIndex + 1 = 36 then 3 else 2 }, []) := by
  simp [parserStep, h]

lemma step_phase3 (s : ParserState) (b : Nat) (h : s.Phase = 3) :
    parserStep s b = ({ s with MsgCRC := b % 256 * 256, Phase := 4 }, []) := by
  simp [parserStep, h]

lemma step_phase4_ok (s : ParserState) (b : Nat) (h : s.Phase = 4)
    (hm : (s.MsgCRC + b % 256) % 65536 = s.Crc) :
    parserStep s b = ({ s with MsgCRC := s.Crc, RdyFlg := 1, packet := (s.packet + 1) % 65536, Phase := 0 },
      (if s.data1 16 ≠ 255 then [Ev.gsRec ((s.packet + 1) % 65536) (s.data1 3) (s.data1 16)] else []) ++
        [Ev.eegRec ((s.packet + 1) % 65536) (s.data1 0) (s.data1 9)]) := by
  simp [parserStep, h, hm]

lemma step_phase4_bad (s : ParserState) (b : Nat) (h : s.Phase = 4)
    (hm : (s.MsgCRC + b % 256) % 65536 ≠ s.Crc) :
    parserStep s b = ({ s with MsgCRC := (s.MsgCRC + b % 256) % 65536, Phase := 0 }, [Ev.errRep s.packet]) := by
  simp [parserStep, h, hm]

lemma step_phaseElse (s : ParserState) (b : Nat) (h0 : s.Phase ≠ 0) (h1 : s.Phase ≠ 1)
    (h2 : s.Phase ≠ 2) (h3 : s.Phase ≠ 3) (h4 : s.Phase ≠ 4) :
    parserStep s b = (s, []) := by
  simp [parserStep, h0, h1, h2, h3, h4]

/-! ### Run lemmas -/

lemma parser_nil (s : ParserState) : parser s [] = (s, []) := rfl

lemma parser_cons (s : ParserState) (b : Nat) (rest : List Nat) :
    parser s (b :: rest) =
      ((parser (parserStep s b).1 rest).1, (parserStep s b).2 ++ (parser (parserStep s b).1 rest).2) := rfl

lemma parser_append (s : ParserState) (xs ys : List Nat) :
    parser s (xs ++ ys) =
      ((parser (parser s xs).1 ys).1, (parser s xs).2 ++ (parser (parser s xs).1 ys).2) := by
  induction xs generalizing s with
  | nil => simp [parser_nil]
  | cons b rest ih => simp [parser_cons, ih, List.append_assoc]

/-! ### Arithmetic facts about 16-bit reinterpretation and byte assembly -/

lemma toUnsigned16_toSigned16 (n : Nat) : toUnsigned16 (toSigned16 n) = n % 65536 := by
  unfold toSigned16 toUnsigned16
  split <;> omega

lemma or_div_two_pow (n a b : Nat) : (a ||| b) / 2 ^ n = a / 2 ^ n ||| b / 2 ^ n := by
  induction n generalizing a b with
  | zero => simp
  | succ k ih =>
    have h2 : (2 : Nat) ^ (k + 1) = 2 ^ k * 2 := by ring
    rw [h2, ← Nat.div_div_eq_div_mul, ← Nat.div_div_eq_div_mul, ← Nat.div_div_eq_div_mul, ih,
      Nat.or_div_two]

lemma lor_high_low (hi lo : Nat) (hlo : lo < 256) : Nat.lor (hi * 256) lo = hi * 256 + lo := by
  show hi * 256 ||| lo = hi * 256 + lo
  have hdiv : (hi * 256 ||| lo) / 256 = hi := by
    have h := or_div_two_pow 8 (hi * 256) lo
    norm_num at h
    rw [h, Nat.div_eq_of_lt hlo, Nat.or_zero]
  have hmod : (hi * 256 ||| lo) % 256 = lo := by
    have hmask : ∀ x : Nat, x % 256 = x &&& 255 := by
      intro x
      have h := Nat.and_pow_two_sub_one_eq_mod x 8
      norm_num at h
      exact h.symm
    rw [hmask, Nat.and_comm, Nat.and_or_distrib_left, Nat.and_comm 255 (hi * 256),
      Nat.and_comm 255 lo, ← hmask, ← hmask, Nat.mul_mod_left, Nat.mod_eq_of_lt hlo,
      Nat.zero_or]
  have hdm := Nat.div_add_mod (hi * 256 ||| lo) 256
  omega

/-! ### The payload-collection run -/

lemma collect_run (p : List Nat) : ∀ s : ParserState, s.Phase = 2 → (∀ x ∈ p, x < 256) →
    s.LocalIndex + p.length = 36 → s.LocalIndex < 36 →
    (parser s p).1.Phase = 3 ∧ (parser s p).1.LocalIndex = 36 ∧
      (parser s p).1.Crc = (s.Crc + p.sum) % 65536 ∧ (parser s p).1.MsgCRC = s.MsgCRC ∧
      (parser s p).1.packet = s.packet ∧ (parser s p).2 = [] := by
  induction p with
  | nil =>
    intro s _ _ hlen hlt
    simp at hlen
    omega
  | cons b rest ih =>
    intro s h2 hb hlen hlt
    have hb0 : b < 256 := hb b (by simp)
    have hbmod : b % 256 = b := Nat.mod_eq_of_lt hb0
    rw [parser_cons, step_phase2 s b h2]
    by_cases h36 : s.LocalIndex + 1 = 36
    · have hrest : rest = [] := by
        have := hlen
        simp at this
        cases rest with
        | nil => rfl
        | cons c cs => simp at this; omega
      subst hrest
      simp [parser_nil, h36, hbmod]
    · have hlen' : s.LocalIndex + 1 + rest.length = 36 := by simp at hlen; omega
      have hlt' : s.LocalIndex + 1 < 36 := by omega
      rw [if_neg h36]
      have hres := ih { s with data1 := fun j => if j = s.LocalIndex / 2 then (if s.LocalIndex % 2 = 0 then toSigned16 (b % 256 * 256) else toSigned16 (Nat.lor (toUnsigned16 (s.data1 (s.LocalIndex / 2))) (b % 256))) else s.data1 j, LocalIndex := s.LocalIndex + 1, Crc := (s.Crc + b % 256) % 65536, Phase := 2 }
        rfl (fun x hx => hb x (by simp [hx])) (by simpa using hlen') (by simpa using hlt')
      refine ⟨hres.1, hres.2.1, ?_, hres.2.2.2.1, hres.2.2.2.2.1, by simpa using hres.2.2.2.2.2⟩
      have hc := hres.2.2.1
      simp only [List.sum_cons, hbmod] at hc ⊢
      rw [hc]
      omega

/-! ### Acceptance of a whole frame -/

lemma accept_events (s : ParserState) (payload : List Nat) (cb1 cb2 : Nat)
    (hph : s.Phase = 0) (hlen : payload.length = 36) (hb : ∀ x ∈ payload, x < 256)
    (h1 : cb1 < 256) (h2 : cb2 < 256) :
    countEeg (parser s (0xAA :: 0x55 :: (payload ++ [cb1, cb2]))).2 =
        (if cb1 * 256 + cb2 = (0xAA + 0x55 + payload.sum) % 65536 then 1 else 0) ∧
      countErr (parser s (0xAA :: 0x55 :: (payload ++ [cb1, cb2]))).2 =
        (if cb1 * 256 + cb2 = (0xAA + 0x55 + payload.sum) % 65536 then 0 else 1) ∧
      (parser s (0xAA :: 0x55 :: (payload ++ [cb1, cb2]))).1.Phase = 0 := by
  have e0 : parserStep s 0xAA = ({ s with Phase := 1, Crc := 0xAA }, []) :=
    step_phase0_aa s 0xAA hph (by norm_num)
  have e1 : parserStep { s with Phase := 1, Crc := 0xAA } 0x55 =
      ({ s with Phase := 2, RdyFlg := 0, Crc := 255, LocalIndex := 0 }, []) := by
    rw [step_phase1_55 _ 0x55 rfl (by norm_num)]
    rfl
  rw [parser_cons, e0, parser_cons, e1, parser_append]
  obtain ⟨hp3, hli, hcrc, hmsg, hpk, hev⟩ :=
    collect_run payload { s with Phase := 2, RdyFlg := 0, Crc := 255, LocalIndex := 0 }
      rfl hb (by simpa using hlen) (by norm_num)
  rw [hev]
  simp only at hcrc
  generalize hgen : (parser { s with Phase := 2, RdyFlg := 0, Crc := 255, LocalIndex := 0 } payload).1 = s3 at hp3 hcrc ⊢
  have e3 : parserStep s3 cb1 = ({ s3 with MsgCRC := cb1 * 256, Phase := 4 }, []) := by
    rw [step_phase3 s3 cb1 hp3, Nat.mod_eq_of_lt h1]
  rw [parser_cons, e3, parser_cons]
  have hm : (({ s3 with MsgCRC := cb1 * 256, Phase := 4 }).MsgCRC + cb2 % 256) % 65536 =
      cb1 * 256 + cb2 := by
    simp only [Nat.mod_eq_of_lt h2]
    omega
  by_cases hok : cb1 * 256 + cb2 = (0xAA + 0x55 + payload.sum) % 65536
  · have hvalid : (({ s3 with MsgCRC := cb1 * 256, Phase := 4 }).MsgCRC + cb2 % 256) % 65536 =
        ({ s3 with MsgCRC := cb1 * 256, Phase := 4 }).Crc := by
      rw [hm]
      show cb1 * 256 + cb2 = s3.Crc
      rw [hcrc]
      norm_num at hok
      exact hok
    rw [step_phase4_ok _ cb2 rfl hvalid, parser_nil]
    by_cases hgs : ({ s3 with MsgCRC := cb1 * 256, Phase := 4 }).data1 16 ≠ 255 <;>
      simp [hgs, countEeg, countErr, List.countP_append, Ev.isEeg, Ev.isErr, hok]
  · have hbad : (({ s3 with MsgCRC := cb1 * 256, Phase := 4 }).MsgCRC + cb2 % 256) % 65536 ≠
        ({ s3 with MsgCRC := cb1 * 256, Phase := 4 }).Crc := by
      rw [hm]
      show ¬ (cb1 * 256 + cb2 = s3.Crc)
      rw [hcrc]
      intro hcon
      apply hok
      norm_num
      exact hcon
    rw [step_phase4_bad _ cb2 rfl hbad, parser_nil]
    simp [countEeg, countErr, List.countP_append, Ev.isEeg, Ev.isErr, hok]

/-! ### Event accounting per step and per run -/

lemma step_no_events (s : ParserState) (b : Nat) (h : s.Phase ≠ 4) : (parserStep s b).2 = [] := by
  by_cases h0 : s.Phase = 0
  · by_cases hb : b % 256 = 0xAA
    · rw [step_phase0_aa s b h0 hb]
    · rw [step_phase0_other s b h0 hb]
  · by_cases h1 : s.Phase = 1
    · by_cases hb : b % 256 = 0x55
      · rw [step_phase1_55 s b h1 hb]
      · rw [step_phase1_other s b h1 hb]
    · by_cases h2 : s.Phase = 2
      · rw [step_phase2 s b h2]
      · by_cases h3 : s.Phase = 3
        · rw [step_phase3 s b h3]
        · rw [step_phaseElse s b h0 h1 h2 h3 h]

lemma step_countEeg (s : ParserState) (b : Nat) :
    countEeg (parserStep s b).2 = if stepValidates s b then 1 else 0 := by
  by_cases h4 : s.Phase = 4
  · by_cases hm : (s.MsgCRC + b % 256) % 65536 = s.Crc
    · rw [step_phase4_ok s b h4 hm]
      by_cases hgs : s.data1 16 ≠ 255 <;>
        simp [hgs, countEeg, List.countP_append, Ev.isEeg, stepValidates, h4, hm]
    · rw [step_phase4_bad s b h4 hm]
      simp [countEeg, Ev.isEeg, Ev.isErr, stepValidates, h4, hm]
  · rw [step_no_events s b h4]
    have hv : stepValidates s b = false := by
      simp [stepValidates, h4]
    simp [hv, countEeg]

lemma step_countGs (s : ParserState) (b : Nat) :
    countGs (parserStep s b).2 =
      if stepValidates s b && (s.data1 16 != 255) then 1 else 0 := by
  by_cases h4 : s.Phase = 4
  · by_cases hm : (s.MsgCRC + b % 256) % 65536 = s.Crc
    · rw [step_phase4_ok s b h4 hm]
      by_cases hgs : s.data1 16 ≠ 255
      · simp [hgs, countGs, List.countP_append, Ev.isGs, stepValidates, h4, hm]
      · simp at hgs
        simp [hgs, countGs, List.countP_append, Ev.isGs, stepValidates, h4, hm]
    · rw [step_phase4_bad s b h4 hm]
      simp [countGs, Ev.isGs, stepValidates, h4, hm]
  · rw [step_no_events s b h4]
    have hv : stepValidates s b = false := by
      simp [stepValidates, h4]
    simp [hv, countGs]

lemma run_countEeg (input : List Nat) : ∀ s : ParserState,
    countEeg (parser s input).2 = validCount s input := by
  induction input with
  | nil => intro s; simp [parser_nil, countEeg, validCount]
  | cons b rest ih =>
    intro s
    rw [parser_cons]
    simp only [countEeg, List.countP_append, validCount]
    have h1 := step_countEeg s b
    have h2 := ih (parserStep s b).1
    simp only [countEeg] at h1 h2
    cases hsv : stepValidates s b
    · rw [hsv] at h1
      rw [if_neg (by decide : ¬(false = true))] at h1 ⊢
      omega
    · rw [hsv] at h1
      rw [if_pos (by decide : true = true)] at h1 ⊢
      omega

lemma run_countGs (input : List Nat) : ∀ s : ParserState,
    countGs (parser s input).2 = validGsCount s input := by
  induction input with
  | nil => intro s; simp [parser_nil, countGs, validGsCount]
  | cons b rest ih =>
    intro s
    rw [parser_cons]
    simp only [countGs, List.countP_append, validGsCount]
    have h1 := step_countGs s b
    have h2 := ih (parserStep s b).1
    simp only [countGs] at h1 h2
    cases hsv : stepValidates s b && (s.data1 16 != 255)
    · rw [hsv] at h1
      rw [if_neg (by decide : ¬(false = true))] at h1 ⊢
      omega
    · rw [hsv] at h1
      rw [if_pos (by decide : true = true)] at h1 ⊢
      omega

/-! ### Bytes ignored while waiting for the second magic byte -/

lemma junk_run (junk : List Nat) : ∀ s : ParserState, s.Phase = 1 →
    (∀ j ∈ junk, j % 256 ≠ 0x55) → parser s junk = (s, []) := by
  induction junk with
  | nil => intro s _ _; rfl
  | cons j rest ih =>
    intro s h1 hj
    rw [parser_cons, step_phase1_other s j h1 (hj j (by simp))]
    simp [ih s h1 (fun x hx => hj x (by simp [hx]))]

/-! ### Reachable-state invariant -/

lemma reachable_inv (s : ParserState) (h : Reachable s) :
    s.LocalIndex ≤ 36 ∧ (s.Phase = 2 → s.LocalIndex < 36) ∧ ∀ n, 18 ≤ n → s.data1 n = 0 := by
  induction h with
  | init =>
    refine ⟨by norm_num [initState], ?_, ?_⟩
    · intro hc
      norm_num [initState] at hc
    · intro n _
      rfl
  | next s' b hr ih =>
    obtain ⟨hli, hph2, hdata⟩ := ih
    by_cases h0 : s'.Phase = 0
    · by_cases hb : b % 256 = 0xAA
      · rw [step_phase0_aa s' b h0 hb]
        exact ⟨hli, fun hc => absurd (show (1 : Nat) = 2 from hc) (by norm_num), hdata⟩
      · rw [step_phase0_other s' b h0 hb]
        exact ⟨hli, hph2, hdata⟩
    · by_cases h1 : s'.Phase = 1
      · by_cases hb : b % 256 = 0x55
        · rw [step_phase1_55 s' b h1 hb]
          exact ⟨by norm_num, fun _ => by norm_num, hdata⟩
        · rw [step_phase1_other s' b h1 hb]
          exact ⟨hli, hph2, hdata⟩
      · by_cases h2 : s'.Phase = 2
        · have hlt := hph2 h2
          rw [step_phase2 s' b h2]
          refine ⟨?_, ?_, ?_⟩
          · show s'.LocalIndex + 1 ≤ 36
            omega
          · intro hc
            have hc' : (if s'.LocalIndex + 1 = 36 then 3 else 2 : Nat) = 2 := hc
            show s'.LocalIndex + 1 < 36
            by_cases h36 : s'.LocalIndex + 1 = 36
            · rw [if_pos h36] at hc'
              norm_num at hc'
            · omega
          · intro n hn
            have hne : ¬ (n = s'.LocalIndex / 2) := by omega
            show (if n = s'.LocalIndex / 2 then _ else s'.data1 n) = 0
            rw [if_neg hne]
            exact hdata n hn
        · by_cases h3 : s'.Phase = 3
          · rw [step_phase3 s' b h3]
            exact ⟨hli, fun hc => absurd (show (4 : Nat) = 2 from hc) (by norm_num), hdata⟩
          · by_cases h4 : s'.Phase = 4
            · by_cases hm : (s'.MsgCRC + b % 256) % 65536 = s'.Crc
              · rw [step_phase4_ok s' b h4 hm]
                exact ⟨hli, fun hc => absurd (show (0 : Nat) = 2 from hc) (by norm_num), hdata⟩
              · rw [step_phase4_bad s' b h4 hm]
                exact ⟨hli, fun hc => absurd (show (0 : Nat) = 2 from hc) (by norm_num), hdata⟩
            · rw [step_phaseElse s' b h0 h1 h2 h3 h4]
              exact ⟨hli, hph2, hdata⟩

lemma step_phase2_to3_iff (s : ParserState) (b : Nat) (h : s.Phase = 2) :
    ((parserStep s b).1.Phase = 3 ↔ s.LocalIndex + 1 = 36) := by
  rw [step_phase2 s b h]
  by_cases h36 : s.LocalIndex + 1 = 36
  · simp [h36]
  · simp [h36]

/-! ### Concrete inputs used to instantiate the theorems -/

/-- The happy-path frame of the protocol: `AA 55`, 36 bytes `01`, and
checksum `0x0123 = 0xAA + 0x55 + 36`. -/
def happyFrame : List Nat := [0xAA, 0x55] ++ List.replicate 36 1 ++ [0x01, 0x23]

/-- The same frame with the final checksum byte off by one. -/
def corruptFrame : List Nat := [0xAA, 0x55] ++ List.replicate 36 1 ++ [0x01, 0x24]

/-- A sample rendering of the floating-point field. -/
def fstub : Int → String := fun _ => "19.532000"

/-- The parser state after the first magic byte. -/
def stateAfterAA : ParserState := (parser initState [0xAA]).1

/-- The parser state at the start of payload collection. -/
def phase2State : ParserState := (parser initState [0xAA, 0x55]).1

/-- A state awaiting the second checksum byte whose checksum will not match. -/
def badCrcState : ParserState :=
  { Phase := 4, Crc := 5, RdyFlg := 0, LocalIndex := 36, MsgCRC := 0,
    data1 := fun _ => 0, packet := 0 }

/-- A state awaiting the second checksum byte whose checksum will match
on byte 255. -/
def okCrcState : ParserState :=
  { Phase := 4, Crc := 255, RdyFlg := 0, LocalIndex := 36, MsgCRC := 0,
    data1 := fun _ => 0, packet := 0 }

/-! ### The claims -/

/-- Claim C1: for every device-to-host frame (`AA 55`, 36 payload bytes,
two checksum bytes) the parser accepts and emits the packet iff the
received checksum word, assembled as `(first byte << 8) + second byte`,
equals the 16-bit unsigned sum (mod 2^16) of the 38 preceding frame
bytes; on mismatch it emits nothing and reports one error.  The two
checksum bytes themselves never enter the accumulator. -/
theorem C1_checksum_acceptance (s : ParserState) (payload : List Nat) (cb1 cb2 : Nat)
    (hph : s.Phase = 0) (hlen : payload.length = 36) (hb : ∀ x ∈ payload, x < 256)
    (h1 : cb1 < 256) (h2 : cb2 < 256) :
    countEeg (parser s ([0xAA, 0x55] ++ payload ++ [cb1, cb2])).2 =
        (if cb1 * 256 + cb2 = (0xAA + 0x55 + payload.sum) % 65536 then 1 else 0) ∧
      countErr (parser s ([0xAA, 0x55] ++ payload ++ [cb1, cb2])).2 =
        (if cb1 * 256 + cb2 = (0xAA + 0x55 + payload.sum) % 65536 then 0 else 1) := by
  have h := accept_events s payload cb1 cb2 hph hlen hb h1 h2
  have hl : ([0xAA, 0x55] ++ payload ++ [cb1, cb2] : List Nat) =
      0xAA :: 0x55 :: (payload ++ [cb1, cb2]) := by
    simp
  rw [hl]
  exact ⟨h.1, h.2.1⟩

/-- Witness for C1 on the happy-path frame. -/
theorem C1_checksum_acceptance_witness :
    countEeg (parser initState ([0xAA, 0x55] ++ List.replicate 36 1 ++ [0x01, 0x23])).2 =
        (if 0x01 * 256 + 0x23 = (0xAA + 0x55 + (List.replicate 36 1).sum) % 65536 then 1 else 0) ∧
      countErr (parser initState ([0xAA, 0x55] ++ List.replicate 36 1 ++ [0x01, 0x23])).2 =
        (if 0x01 * 256 + 0x23 = (0xAA + 0x55 + (List.replicate 36 1).sum) % 65536 then 0 else 1) :=
  C1_checksum_acceptance initState (List.replicate 36 1) 0x01 0x23 rfl (by decide)
    (by decide) (by decide) (by decide)

/-- Claim C2 counterexample: feeding `AA AA 55` to a fresh parser puts
it into phase 2 (`CollectingPayload`), and after `AA AA` it is still in
phase 1 (`AwaitMagic2`), not back in `AwaitMagic1`. -/
theorem C2_counterexample :
    (parser initState [0xAA, 0xAA, 0x55]).1.Phase = 2 ∧
      (parser initState [0xAA, 0xAA]).1.Phase = 1 := by
  exact ⟨rfl, rfl⟩

/-- Claim C2 (amended): when the parser is in `AwaitMagic2` (phase 1)
and the next byte is anything other than 0x55 — including 0xAA itself —
the byte is ignored entirely: the parser stays in `AwaitMagic2` with all
state unchanged and emits nothing (the byte is not treated as a new
first magic byte, and the parser does not drop back to `AwaitMagic1`).
Consequently `AA AA 55` reaches `CollectingPayload` on the third byte. -/
theorem C2_awaitMagic2_nonmatch (s : ParserState) (b : Nat) (h : s.Phase = 1)
    (hb : b % 256 ≠ 0x55) : parserStep s b = (s, []) :=
  step_phase1_other s b h hb

/-- Witness for the amended C2: a 0xAA byte in phase 1 changes nothing. -/
theorem C2_awaitMagic2_nonmatch_witness :
    parserStep stateAfterAA 0xAA = (stateAfterAA, []) :=
  C2_awaitMagic2_nonmatch stateAfterAA 0xAA rfl (by decide)

/-- Claim C4: on checksum mismatch the parser emits no record to either
stream, leaves the packet counter unchanged, reports exactly one error
citing the current (un-incremented) packet counter, and returns to
`AwaitMagic1`; a single corrupted frame fed to a fresh parser produces
zero records and one error report citing packet counter 0. -/
theorem C4_checksum_mismatch :
    (∀ (s : ParserState) (b : Nat), s.Phase = 4 → (s.MsgCRC + b % 256) % 65536 ≠ s.Crc →
        (parserStep s b).2 = [Ev.errRep s.packet] ∧ (parserStep s b).1.packet = s.packet ∧
          (parserStep s b).1.Phase = 0) ∧
      (parser initState corruptFrame).2 = [Ev.errRep 0] ∧
        countEeg (parser initState corruptFrame).2 = 0 ∧
        countGs (parser initState corruptFrame).2 = 0 ∧
        countErr (parser initState corruptFrame).2 = 1 := by
  refine ⟨?_, by decide, by decide, by decide, by decide⟩
  intro s b h hm
  rw [step_phase4_bad s b h hm]
  exact ⟨rfl, rfl, rfl⟩

/-- Witness for C4's universally quantified part. -/
theorem C4_checksum_mismatch_witness :
    (parserStep badCrcState 0).2 = [Ev.errRep badCrcState.packet] ∧
      (parserStep badCrcState 0).1.packet = badCrcState.packet ∧
      (parserStep badCrcState 0).1.Phase = 0 :=
  C4_checksum_mismatch.1 badCrcState 0 rfl (by decide)

/-- Claim C3: in `CollectingPayload`, with `w = offset / 2`, an
even-offset byte is stored at word `w` as the sign-extended value
`(b << 8)` (low half zero); an odd-offset byte is OR-ed into the low
byte of word `w`; hence a completed word is the signed 16-bit big-endian
value of its two bytes, so `80 00` decodes to −32768 and `7F FF` to
+32767. -/
theorem C3_payload_word_assembly :
    (∀ (s : ParserState) (b : Nat), s.Phase = 2 → s.LocalIndex % 2 = 0 →
        (parserStep s b).1.data1 (s.LocalIndex / 2) = toSigned16 (b % 256 * 256)) ∧
      (∀ (s : ParserState) (b : Nat), s.Phase = 2 → s.LocalIndex % 2 = 1 →
        (parserStep s b).1.data1 (s.LocalIndex / 2) =
          toSigned16 (Nat.lor (toUnsigned16 (s.data1 (s.LocalIndex / 2))) (b % 256))) ∧
      (∀ (s : ParserState) (hi lo : Nat), s.Phase = 2 → s.LocalIndex % 2 = 0 →
        s.LocalIndex < 36 → hi < 256 → lo < 256 →
        (parserStep (parserStep s hi).1 lo).1.data1 (s.LocalIndex / 2) =
          toSigned16 (hi * 256 + lo)) ∧
      toSigned16 (0x80 * 256 + 0x00) = -32768 ∧ toSigned16 (0x7F * 256 + 0xFF) = 32767 := by
  refine ⟨?_, ?_, ?_, by decide, by decide⟩
  · intro s b h2 hev
    rw [step_phase2 s b h2]
    show (if s.LocalIndex / 2 = s.LocalIndex / 2 then _ else _) = _
    rw [if_pos rfl, if_pos hev]
  · intro s b h2 hodd
    have hne : ¬ (s.LocalIndex % 2 = 0) := by omega
    rw [step_phase2 s b h2]
    show (if s.LocalIndex / 2 = s.LocalIndex / 2 then _ else _) = _
    rw [if_pos rfl, if_neg hne]
  · intro s hi lo h2 hev hlt hhi hlo
    have h36 : ¬ (s.LocalIndex + 1 = 36) := by omega
    rw [step_phase2 s hi h2]
    rw [step_phase2 _ lo (by show (if s.LocalIndex + 1 = 36 then 3 else 2 : Nat) = 2; rw [if_neg h36])]
    show (if s.LocalIndex / 2 = (s.LocalIndex + 1) / 2 then _ else _) = _
    have hdiv : (s.LocalIndex + 1) / 2 = s.LocalIndex / 2 := by omega
    rw [hdiv, if_pos rfl]
    have hodd : ¬ ((s.LocalIndex + 1) % 2 = 0) := by omega
    rw [if_neg hodd]
    show toSigned16 (Nat.lor (toUnsigned16
      (if s.LocalIndex / 2 = s.LocalIndex / 2 then _ else _)) (lo % 256)) = _
    rw [if_pos rfl, if_pos hev, Nat.mod_eq_of_lt hhi, Nat.mod_eq_of_lt hlo,
      toUnsigned16_toSigned16, Nat.mod_eq_of_lt (by omega : hi * 256 < 65536),
      lor_high_low hi lo hlo]

/-- Witness for C3: assembling the word `80 00` at the start of the
payload yields −32768. -/
theorem C3_payload_word_assembly_witness :
    (parserStep (parserStep phase2State 0x80).1 0x00).1.data1 (phase2State.LocalIndex / 2) =
      toSigned16 (0x80 * 256 + 0x00) :=
  C3_payload_word_assembly.2.2.1 phase2State 0x80 0x00 rfl rfl (by decide) (by decide) (by decide)

/-- Claim C5 counterexample: the EEG record actually emitted for the
happy-path frame uses comma-and-space separators (`"1, 257, …"`), so it
differs from the bare-comma format `<packet>,<word0>,…` stated by the
claim, even with an identical floating-point field. -/
theorem C5_counterexample :
    renderEeg fstub (parser initState happyFrame).2 = [eegLine 1 257 257 (fstub 257)] ∧
      eegLine 1 257 257 (fstub 257) ≠ eegLineClaimed 1 257 257 (fstub 257) :=
  ⟨rfl, by decide⟩

/-- Claim C5 (amended): for every valid packet the EEG stream receives
exactly one record, of the form
`<packet>, <word0>, <word0*0.076>, <word9 as 8-hex-digit>\n` with
comma-and-space separators: the packet counter in decimal, word 0 in
signed decimal, the floating-point field produced by the formatter from
word 0, and word 9 as an upper-case zero-padded 8-hex-digit field,
terminated by a single newline. -/
theorem C5_eeg_record_format (fmtF : Int → String) (s : ParserState) (b : Nat)
    (h : s.Phase = 4) (hm : (s.MsgCRC + b % 256) % 65536 = s.Crc) :
    renderEeg fmtF (parserStep s b).2 =
        [eegLine ((s.packet + 1) % 65536) (s.data1 0) (s.data1 9) (fmtF (s.data1 0))] ∧
      countEeg (parserStep s b).2 = 1 ∧
      ∀ (s0 : ParserState) (input : List Nat),
        countEeg (parser s0 input).2 = validCount s0 input := by
  refine ⟨?_, ?_, fun s0 input => run_countEeg input s0⟩
  · rw [step_phase4_ok s b h hm]
    by_cases hgs : s.data1 16 ≠ 255 <;> simp [hgs, renderEeg]
  · rw [step_phase4_ok s b h hm]
    by_cases hgs : s.data1 16 ≠ 255 <;>
      simp [hgs, countEeg, List.countP_append, Ev.isEeg]

/-- Witness for the amended C5 at a concrete validating state. -/
theorem C5_eeg_record_format_witness :
    renderEeg fstub (parserStep okCrcState 255).2 =
        [eegLine ((okCrcState.packet + 1) % 65536) (okCrcState.data1 0) (okCrcState.data1 9)
          (fstub (okCrcState.data1 0))] ∧
      countEeg (parserStep okCrcState 255).2 = 1 ∧
      ∀ (s0 : ParserState) (input : List Nat),
        countEeg (parser s0 input).2 = validCount s0 input :=
  C5_eeg_record_format fstub okCrcState 255 rfl (by decide)

/-- Claim C6: for every valid packet a GS record
`<packet>, <word3>, <word16> \n` (comma-and-space separators, trailing
space before the newline) is emitted iff word 16 ≠ 255, compared as the
full signed 16-bit value; over any run the GS record count equals the
number of validated packets whose word 16 differs from 255. -/
theorem C6_gs_record (s : ParserState) (b : Nat) (h : s.Phase = 4)
    (hm : (s.MsgCRC + b % 256) % 65536 = s.Crc) :
    renderGs (parserStep s b).2 =
        (if s.data1 16 ≠ 255 then
          [gsLine ((s.packet + 1) % 65536) (s.data1 3) (s.data1 16)] else []) ∧
      ∀ (s0 : ParserState) (input : List Nat),
        countGs (parser s0 input).2 = validGsCount s0 input := by
  constructor
  · rw [step_phase4_ok s b h hm]
    by_cases hgs : s.data1 16 ≠ 255 <;> simp [hgs, renderGs]
  · exact fun s0 input => run_countGs input s0

/-- Witness for C6 at a concrete validating state (word 16 = 0 ≠ 255,
so the record is emitted). -/
theorem C6_gs_record_witness :
    renderGs (parserStep okCrcState 255).2 =
        (if okCrcState.data1 16 ≠ 255 then
          [gsLine ((okCrcState.packet + 1) % 65536) (okCrcState.data1 3) (okCrcState.data1 16)]
        else []) ∧
      ∀ (s0 : ParserState) (input : List Nat),
        countGs (parser s0 input).2 = validGsCount s0 input :=
  C6_gs_record okCrcState 255 rfl (by decide)

/-- Claim C7: for every 4-bit command type `t` and 4-bit option `o`, the
command encoder hands the transport, in a single write call, exactly the
8-byte frame `AA 55 00 (t<<4|o) 00 00 c 03` with
`c = (0xAA + 0x55 + (t<<4|o)) & 0xFF` (8-bit truncated sum of bytes
0..5). -/
theorem C7_command_frame : ∀ t < 16, ∀ o < 16,
    setParamWrites t o =
        [[0xAA, 0x55, 0x00, Nat.lor (t * 16) o, 0x00, 0x00,
          (0xAA + 0x55 + Nat.lor (t * 16) o) % 256, 0x03]] ∧
      (setParamFrame t o).length = 8 := by decide

/-- Witness for C7 at the low-pass-filter command `setParam(0x3, 1)`. -/
theorem C7_command_frame_witness :
    setParamWrites 0x3 0x1 =
        [[0xAA, 0x55, 0x00, Nat.lor (0x3 * 16) 0x1, 0x00, 0x00,
          (0xAA + 0x55 + Nat.lor (0x3 * 16) 0x1) % 256, 0x03]] ∧
      (setParamFrame 0x3 0x1).length = 8 :=
  C7_command_frame 0x3 (by decide) 0x1 (by decide)

/-- Claim C8: in every reachable parser state the payload byte offset is
at most 36 (strictly less while collecting) and the buffer is written
only at word indices 0..17 (all indices ≥ 18 keep their initial zero);
and from `CollectingPayload` the parser moves to `AwaitCrcHigh` exactly
when the offset reaches 36 after the increment. -/
theorem C8_offset_bounds :
    (∀ s : ParserState, Reachable s →
        s.LocalIndex ≤ 36 ∧ (s.Phase = 2 → s.LocalIndex < 36) ∧
          ∀ n, 18 ≤ n → s.data1 n = 0) ∧
      ∀ (s : ParserState) (b : Nat), s.Phase = 2 →
        ((parserStep s b).1.Phase = 3 ↔ s.LocalIndex + 1 = 36) :=
  ⟨fun s h => reachable_inv s h, fun s b h => step_phase2_to3_iff s b h⟩

/-- Witness for C8 at the initial state and at the start of payload
collection. -/
theorem C8_offset_bounds_witness :
    (initState.LocalIndex ≤ 36 ∧ (initState.Phase = 2 → initState.LocalIndex < 36) ∧
        ∀ n, 18 ≤ n → initState.data1 n = 0) ∧
      ((parserStep phase2State 7).1.Phase = 3 ↔ phase2State.LocalIndex + 1 = 36) :=
  ⟨C8_offset_bounds.1 initState Reachable.init, C8_offset_bounds.2 phase2State 7 rfl⟩

/-- Claim C9: after a frame fails its checksum, for every continuation
of the input the parser is back in `AwaitMagic1` within at most 42
further bytes — in fact immediately, having consumed zero further bytes
— and emits no record while consuming those bytes. -/
theorem C9_resync_bound (s : ParserState) (b : Nat) (cont : List Nat)
    (h : s.Phase = 4) (hm : (s.MsgCRC + b % 256) % 65536 ≠ s.Crc) :
    ∃ k, k ≤ 42 ∧ (parser (parserStep s b).1 (cont.take k)).1.Phase = 0 ∧
      countEeg (parser (parserStep s b).1 (cont.take k)).2 = 0 ∧
      countGs (parser (parserStep s b).1 (cont.take k)).2 = 0 := by
  refine ⟨0, by norm_num, ?_, ?_, ?_⟩
  · rw [List.take_zero, parser_nil]
    rw [step_phase4_bad s b h hm]
  · rw [List.take_zero, parser_nil]
    rfl
  · rw [List.take_zero, parser_nil]
    rfl

/-- Witness for C9 at a concrete mismatching state. -/
theorem C9_resync_bound_witness :
    ∃ k, k ≤ 42 ∧ (parser (parserStep badCrcState 0).1 (([7, 8] : List Nat).take k)).1.Phase = 0 ∧
      countEeg (parser (parserStep badCrcState 0).1 (([7, 8] : List Nat).take k)).2 = 0 ∧
      countGs (parser (parserStep badCrcState 0).1 (([7, 8] : List Nat).take k)).2 = 0 :=
  C9_resync_bound badCrcState 0 [7, 8] rfl (by decide)

/-- Claim C10: every byte other than 0x55 consumed in `AwaitMagic2`
leaves the whole parser state unchanged, so a stream `AA`, any number of
non-0x55 bytes, `55`, 36 payload bytes, and a checksum word equal to
`0xAA + 0x55 +` payload sum (mod 2^16) parses — state and records —
exactly as if the intervening bytes were absent, and validates. -/
theorem C10_junk_transparent (junk payload : List Nat) (cb1 cb2 : Nat)
    (hj : ∀ j ∈ junk, j % 256 ≠ 0x55) (hlen : payload.length = 36)
    (hb : ∀ x ∈ payload, x < 256)
    (hsum : cb1 * 256 + cb2 = (0xAA + 0x55 + payload.sum) % 65536)
    (h1 : cb1 < 256) (h2 : cb2 < 256) :
    parser initState (0xAA :: (junk ++ (0x55 :: (payload ++ [cb1, cb2])))) =
        parser initState (0xAA :: 0x55 :: (payload ++ [cb1, cb2])) ∧
      countEeg (parser initState (0xAA :: (junk ++ (0x55 :: (payload ++ [cb1, cb2]))))).2 = 1 := by
  have e0 : parserStep initState 0xAA = ({ initState with Phase := 1, Crc := 0xAA }, []) :=
    step_phase0_aa initState 0xAA rfl (by norm_num)
  have heq : parser initState (0xAA :: (junk ++ (0x55 :: (payload ++ [cb1, cb2])))) =
      parser initState (0xAA :: 0x55 :: (payload ++ [cb1, cb2])) := by
    rw [parser_cons, parser_cons, e0, parser_append, junk_run junk _ rfl hj]
    rfl
  refine ⟨heq, ?_⟩
  rw [heq]
  have h := accept_events initState payload cb1 cb2 rfl hlen hb h1 h2
  rw [h.1, if_pos hsum]

/-- Witness for C10: a stray `AA` between the two magic bytes is
transparent on the happy-path frame. -/
theorem C10_junk_transparent_witness :
    parser initState (0xAA :: (([0xAA] : List Nat) ++ (0x55 :: (List.replicate 36 1 ++ [1, 0x23])))) =
        parser initState (0xAA :: 0x55 :: (List.replicate 36 1 ++ [1, 0x23])) ∧
      countEeg (parser initState
        (0xAA :: (([0xAA] : List Nat) ++ (0x55 :: (List.replicate 36 1 ++ [1, 0x23]))))).2 = 1 :=
  C10_junk_transparent [0xAA] (List.replicate 36 1) 1 0x23 (by decide) (by decide)
    (by decide) (by decide) (by decide) (by decide)
